import Mathlib

/-!
# Verification of the RAG chatbot's ingestion pipeline and chat engine

Shallow embedding of `ingest.py` (PDF ingestion: chunking metadata, batched
embedding and ChromaDB writes) and `chat.py` (vector-store initialization,
citation formatting, the conversational loop) of the
`simple-rag-chatbot-using-langchain-chromadb` repository, together with
theorems settling the specification's claims about them.

External collaborators (PyPDFLoader, the OpenAI embedding endpoint, ChromaDB,
the LLM chain) are modelled as oracle inputs: a load result per PDF, a
per-batch outcome for embedding/store calls, and a per-question answer outcome
for the retrieval chain.
-/

namespace RagBot

/-- Metadata attached to each chunk by `load_and_split_pdf`
(`ingest.py` lines 73-81). -/
structure DocMeta where
  source_path : String
  filename : String
  page_number : Nat
  chunk_id : String
deriving DecidableEq, Repr

/-- A langchain `Document`: page content plus metadata. -/
structure Doc where
  page_content : String
  metadata : DocMeta
deriving DecidableEq, Repr

/-- A record persisted in the vector store: the (text, metadata) pair handed
to `Chroma.from_texts` / `add_texts` (the embedding vector is a function of
the text and is not modelled separately). -/
abbrev Rec := String × DocMeta

/-- The (text, metadata) record written to the store for a document
(`ingest.py` lines 164-165). -/
def toRecord (d : Doc) : Rec := (d.page_content, d.metadata)

/-- The identity of a PDF file on disk: `Path.stem`, `Path.name`, `str(path)`. -/
structure PdfFile where
  stem : String
  name : String
  path : String
deriving DecidableEq, Repr

/-- Models `load_and_split_pdf` (`ingest.py` lines 63-88).  The external
`PyPDFLoader(...).load_and_split(text_splitter)` call is an oracle input:
either an exception (message) or the list of chunk texts.  On success each
chunk's metadata is updated with the source path, filename, a 1-based
`page_number`, and `chunk_id = f"{pdf_path.stem}_page_{i + 1}"`; on any
exception the error is logged and `[]` is returned. -/
def load_and_split_pdf (pdf : PdfFile) (loadResult : Except String (List String)) :
    List Doc :=
  match loadResult with
  | .error _ => []
  | .ok pages =>
      pages.enum.map fun p =>
        { page_content := p.2
          metadata :=
            { source_path := pdf.path
              filename := pdf.name
              page_number := p.1 + 1
              chunk_id := pdf.stem ++ "_page_" ++ toString (p.1 + 1) } }

/-- The document loop of `ingest_documents` (`ingest.py` lines 134-137):
`all_documents` accumulates the chunks of every PDF via `extend`. -/
def processAll (inputs : List (PdfFile × Except String (List String))) : List Doc :=
  (inputs.map fun p => load_and_split_pdf p.1 p.2).flatten

theorem processAll_append (xs ys : List (PdfFile × Except String (List String))) :
    processAll (xs ++ ys) = processAll xs ++ processAll ys := by
  simp [processAll]

/-- C4: a per-document failure is caught inside `load_and_split_pdf` and
contributes the empty chunk list; the surrounding loop continues with the
remaining documents. -/
theorem perDocument_failure_skipped
    (pre post : List (PdfFile × Except String (List String)))
    (pdf : PdfFile) (e : String) :
    processAll (pre ++ (pdf, Except.error e) :: post) =
      processAll pre ++ processAll post ∧
    load_and_split_pdf pdf (Except.error e) = [] := by
  constructor
  · rw [processAll_append]
    simp [processAll, load_and_split_pdf]
  · rfl

/-- C6 (amended): every chunk produced from a document carries its 1-based
ordinal as `page_number` and the identifier `<stem>_page_<ordinal>`. -/
theorem chunk_metadata_shape (pdf : PdfFile) (texts : List String) :
    (load_and_split_pdf pdf (Except.ok texts)).map
        (fun d => (d.metadata.page_number, d.metadata.chunk_id)) =
      (List.range texts.length).map
        (fun i => (i + 1, pdf.stem ++ "_page_" ++ toString (i + 1))) := by
  show (texts.enum.map _).map _ = _
  rw [List.map_map]
  have hc : ((fun d : Doc => (d.metadata.page_number, d.metadata.chunk_id)) ∘
      (fun p : Nat × String =>
        ({ page_content := p.2
           metadata :=
             { source_path := pdf.path
               filename := pdf.name
               page_number := p.1 + 1
               chunk_id := pdf.stem ++ "_page_" ++ toString (p.1 + 1) } } : Doc))) =
      ((fun i => (i + 1, pdf.stem ++ "_page_" ++ toString (i + 1))) ∘ Prod.fst) := rfl
  rw [hc, ← List.map_map, List.enum_map_fst]

/-! ## Configuration (`load_environment`, `ingest.py` lines 31-48) -/

/-- The environment visible to `load_environment`: presence of the API key and
the integer settings parsed from env vars (with their documented defaults
already applied). -/
structure Env where
  openai_api_key : Option String
  chunk_size : Nat
  chunk_overlap : Nat
  batch_size : Nat
deriving DecidableEq, Repr

/-- The configuration dict returned by `load_environment`. -/
structure Config where
  chunk_size : Nat
  chunk_overlap : Nat
  batch_size : Nat
deriving DecidableEq, Repr

/-- Models `load_environment` (`ingest.py` lines 31-48): raises only when the API key
is missing; the chunk size / overlap / batch size values are read without any
validation. -/
def load_environment (env : Env) : Except String Config :=
  match env.openai_api_key with
  | none => Except.error ("Missing required environment variables: [OPENAI_API_KEY]")
  | some _ => Except.ok ⟨env.chunk_size, env.chunk_overlap, env.batch_size⟩

/-- The validation performed by the external langchain `TextSplitter`
constructor invoked at `ingest.py` line 126 (`RecursiveCharacterTextSplitter`
inherits it from `TextSplitter.__init__`): it raises a `ValueError` exactly
when `chunk_overlap > chunk_size`, and accepts `chunk_overlap == chunk_size`.
The repository's own code performs no overlap/size validation. -/
def mkTextSplitter (chunk_size chunk_overlap : Nat) : Except String Unit :=
  if chunk_overlap > chunk_size then
    Except.error ("Got a larger chunk overlap (" ++ toString chunk_overlap ++
      ") than chunk size (" ++ toString chunk_size ++ "), should be smaller.")
  else Except.ok ()

/-! ## Batching (`process_documents_in_batches`, `ingest.py` lines 98-106) -/

/-- Python's `range(start, stop, step)` for a non-negative step, as the list of
generated indices (`range` raises on `step == 0`; the claims only concern
positive batch sizes, so the zero case is mapped to `[]`). -/
def pyRange (start stop step : Nat) : List Nat :=
  if _h : step = 0 then []
  else if _h2 : start < stop then start :: pyRange (start + step) stop step
  else []
termination_by stop - start
decreasing_by omega

theorem pyRange_stop {start stop : Nat} (step : Nat) (h : ¬ start < stop) :
    pyRange start stop step = [] := by
  rw [pyRange]
  split <;> simp [h]

theorem pyRange_step {start stop step : Nat} (hs : step ≠ 0) (h : start < stop) :
    pyRange start stop step = start :: pyRange (start + step) stop step := by
  rw [pyRange, dif_neg hs, dif_pos h]

theorem pyRange_shift (stop step k : Nat) (hs : step ≠ 0) (start : Nat) :
    pyRange (start + k) (stop + k) step = (pyRange start stop step).map (· + k) := by
  have main : ∀ n start, stop - start ≤ n →
      pyRange (start + k) (stop + k) step = (pyRange start stop step).map (· + k) := by
    intro n
    induction n with
    | zero =>
      intro start h
      rw [pyRange_stop _ (by omega), pyRange_stop _ (by omega), List.map_nil]
    | succ n ih =>
      intro start h
      by_cases hlt : start < stop
      · rw [pyRange_step hs (by omega), pyRange_step hs hlt, List.map_cons,
          Nat.add_right_comm, ih (start + step) (by omega)]
      · rw [pyRange_stop _ (by omega), pyRange_stop _ hlt, List.map_nil]
  exact main (stop - start) start le_rfl

/-- Length of `range(start, stop, step)` is `ceil((stop - start) / step)`. -/
theorem pyRange_length (start stop step : Nat) (hs : step ≠ 0) :
    (pyRange start stop step).length = (stop - start + step - 1) / step := by
  have main : ∀ n start, stop - start ≤ n →
      (pyRange start stop step).length = (stop - start + step - 1) / step := by
    intro n
    induction n with
    | zero =>
      intro start h
      rw [pyRange_stop _ (by omega), List.length_nil,
        show stop - start = 0 from by omega]
      exact (Nat.div_eq_of_lt (by omega)).symm
    | succ n ih =>
      intro start h
      by_cases hlt : start < stop
      · rw [pyRange_step hs hlt, List.length_cons, ih (start + step) (by omega)]
        rcases Nat.lt_or_ge stop (start + step) with h2 | h2
        · rw [show stop - (start + step) = 0 from by omega,
            Nat.div_eq_of_lt (by omega),
            show (stop - start + step - 1) / step = 1 from
              Nat.div_eq_of_lt_le (by omega) (by omega)]
        · rw [show stop - start + step - 1 = (stop - (start + step) + step - 1) + step
              from by omega,
            Nat.add_div_right _ (by omega)]
      · rw [pyRange_stop _ hlt, List.length_nil, show stop - start = 0 from by omega]
        exact (Nat.div_eq_of_lt (by omega)).symm
  exact main (stop - start) start le_rfl

/-- Models `process_documents_in_batches` (`ingest.py` lines 98-106): slices
`documents[i : i + batch_size]` for `i in range(0, len(documents), batch_size)`
(a Python slice `l[i : i + b]` is `(l.drop i).take b`). -/
def process_documents_in_batches (documents : List Doc) (batch_size : Nat) :
    List (List Doc) :=
  (pyRange 0 documents.length batch_size).map
    fun i => (documents.drop i).take batch_size

theorem batches_nil (batch_size : Nat) :
    process_documents_in_batches [] batch_size = [] := by
  rw [process_documents_in_batches]
  simp [pyRange_stop]

/-- Unfolding step for the batch partition when there is at least one chunk. -/
theorem batches_cons (documents : List Doc) (batch_size : Nat)
    (hb : batch_size ≠ 0) (hd : documents ≠ []) :
    process_documents_in_batches documents batch_size =
      documents.take batch_size ::
        process_documents_in_batches (documents.drop batch_size) batch_size := by
  have hlen : 0 < documents.length := List.length_pos.mpr hd
  have key : pyRange batch_size documents.length batch_size =
      (pyRange 0 (documents.length - batch_size) batch_size).map (· + batch_size) := by
    rcases le_or_lt batch_size documents.length with hge | hlt
    · have h := pyRange_shift (documents.length - batch_size) batch_size batch_size hb 0
      rw [Nat.zero_add, show documents.length - batch_size + batch_size = documents.length
        from by omega] at h
      exact h
    · rw [pyRange_stop _ (by omega), show documents.length - batch_size = 0 from by omega,
        pyRange_stop _ (by omega), List.map_nil]
  rw [process_documents_in_batches, pyRange_step hb hlen, List.map_cons]
  simp only [List.drop_zero, Nat.zero_add]
  congr 1
  rw [process_documents_in_batches, List.length_drop, key, List.map_map]
  apply List.map_congr_left
  intro i _
  simp only [Function.comp_apply]
  rw [List.drop_drop]
  congr 2
  omega

/-- Partitioning and re-concatenating is the identity (C2, first half). -/
theorem batches_flatten (documents : List Doc) (batch_size : Nat)
    (hb : 0 < batch_size) :
    (process_documents_in_batches documents batch_size).flatten = documents := by
  have main : ∀ n (documents : List Doc), documents.length ≤ n →
      (process_documents_in_batches documents batch_size).flatten = documents := by
    intro n
    induction n with
    | zero =>
      intro docs h
      rcases docs with - | ⟨d, ds⟩
      · rw [batches_nil]; rfl
      · simp at h
    | succ n ih =>
      intro docs h
      rcases docs with - | ⟨d, ds⟩
      · rw [batches_nil]; rfl
      · rw [batches_cons _ _ (by omega) (by simp), List.flatten_cons,
          ih _ (by simp at h ⊢; omega), List.take_append_drop]
  exact main documents.length documents le_rfl

/-- Number of batches is `ceil(M / B)`. -/
theorem batches_length (documents : List Doc) (batch_size : Nat)
    (hb : batch_size ≠ 0) :
    (process_documents_in_batches documents batch_size).length =
      (documents.length + batch_size - 1) / batch_size := by
  rw [process_documents_in_batches, List.length_map, pyRange_length _ _ _ hb,
    Nat.sub_zero]

/-! ## The batch loop of `ingest_documents` (`ingest.py` lines 157-181)

The observable effects of the loop: how many embedding calls were issued (one
inside each `Chroma.from_texts` / `add_texts`), how many `from_texts` and
`add_texts` store calls were issued, and the (text, metadata) records held by
the ChromaDB collection (which may hold pre-existing records: `from_texts`
on an existing persist directory appends to the named collection). -/

structure IngestState where
  records : List Rec
  embedCalls : Nat
  fromTextsCalls : Nat
  addTextsCalls : Nat
  storeCreated : Bool
deriving DecidableEq, Repr

/-- The state before the loop: `vectorstore = None`, the collection holding
its pre-existing records, no calls issued yet. -/
def initState (pre : List Rec) : IngestState :=
  { records := pre, embedCalls := 0, fromTextsCalls := 0, addTextsCalls := 0
    storeCreated := false }

/-- Outcome of the external calls made for one batch: the embedding request
fails, the collection write fails, or both succeed. -/
inductive BatchOutcome where
  | ok
  | embedFail (msg : String)
  | storeFail (msg : String)
deriving DecidableEq, Repr

/-- Every external call succeeds. -/
def allOk : Nat → BatchOutcome := fun _ => BatchOutcome.ok

/-- The exception message carried by a failing outcome. -/
def msgOf : BatchOutcome → String
  | BatchOutcome.ok => ""
  | BatchOutcome.embedFail m => m
  | BatchOutcome.storeFail m => m

/-- How many store-write calls the batch issues under the given outcome
(none when the embedding request already failed). -/
def storeAttempts : BatchOutcome → Nat
  | BatchOutcome.embedFail _ => 0
  | _ => 1

/-- Issue the store call for one batch: `Chroma.from_texts` when
`vectorstore is None` (first batch), `add_texts` afterwards
(`ingest.py` lines 167-178). -/
def bumpStore (st : IngestState) : IngestState :=
  if st.storeCreated then { st with addTextsCalls := st.addTextsCalls + 1 }
  else { st with fromTextsCalls := st.fromTextsCalls + 1, storeCreated := true }

/-- Append the written records to the collection's contents. -/
def addRecords (st : IngestState) (rs : List Rec) : IngestState :=
  { st with records := st.records ++ rs }

/-- The batch loop (`ingest.py` lines 159-178): for batch `i`, embed the
batch's texts (one embedding call), then write the (text, metadata) records
with `from_texts` / `add_texts`.  An exception from either call propagates
(the `try` at line 114 logs and re-raises), so later batches are not
processed. -/
def ingestBatches (outcome : Nat → BatchOutcome) :
    Nat → IngestState → List (List Doc) → IngestState × Except String Unit
  | _, st, [] => (st, Except.ok ())
  | i, st, batch :: rest =>
      let st1 : IngestState := { st with embedCalls := st.embedCalls + 1 }
      match outcome i with
      | BatchOutcome.embedFail m => (st1, Except.error m)
      | BatchOutcome.storeFail m => (bumpStore st1, Except.error m)
      | BatchOutcome.ok =>
          ingestBatches outcome (i + 1)
            (addRecords (bumpStore st1) (batch.map toRecord)) rest

theorem ingestBatches_nil (outcome : Nat → BatchOutcome) (i : Nat)
    (st : IngestState) : ingestBatches outcome i st [] = (st, Except.ok ()) := rfl

theorem ingestBatches_cons (outcome : Nat → BatchOutcome) (i : Nat)
    (st : IngestState) (b : List Doc) (rest : List (List Doc)) :
    ingestBatches outcome i st (b :: rest) =
      match outcome i with
      | BatchOutcome.embedFail m =>
          ({ st with embedCalls := st.embedCalls + 1 }, Except.error m)
      | BatchOutcome.storeFail m =>
          (bumpStore { st with embedCalls := st.embedCalls + 1 }, Except.error m)
      | BatchOutcome.ok =>
          ingestBatches outcome (i + 1)
            (addRecords (bumpStore { st with embedCalls := st.embedCalls + 1 })
              (b.map toRecord)) rest := rfl

theorem bumpStore_created (st : IngestState) (h : st.storeCreated = true) :
    bumpStore st = { st with addTextsCalls := st.addTextsCalls + 1 } := by
  rw [bumpStore, if_pos h]

theorem bumpStore_fresh (st : IngestState) (h : st.storeCreated = false) :
    bumpStore st =
      { st with fromTextsCalls := st.fromTextsCalls + 1, storeCreated := true } := by
  rw [bumpStore, if_neg (by rw [h]; exact Bool.false_ne_true)]

/-- Effect of an all-successful run of the loop from a state whose store is
already created. -/
theorem ingestBatches_allOk_created (bs : List (List Doc)) :
    ∀ (i : Nat) (st : IngestState), st.storeCreated = true →
      ingestBatches allOk i st bs =
        ({ records := st.records ++ bs.flatten.map toRecord,
           embedCalls := st.embedCalls + bs.length,
           fromTextsCalls := st.fromTextsCalls,
           addTextsCalls := st.addTextsCalls + bs.length,
           storeCreated := true }, Except.ok ()) := by
  induction bs with
  | nil =>
    intro i st h
    cases st
    simp_all [ingestBatches_nil]
  | cons b rest ih =>
    intro i st h
    rw [ingestBatches_cons]
    show ingestBatches allOk (i + 1)
        (addRecords (bumpStore { st with embedCalls := st.embedCalls + 1 })
          (b.map toRecord)) rest = _
    rw [bumpStore_created _ (by simpa using h),
      ih (i + 1) _ (by simp [addRecords, h]),
      Prod.mk.injEq]
    cases st
    simp_all [addRecords, IngestState.mk.injEq, List.append_assoc]
    omega

theorem bumpStore_records (st : IngestState) :
    (bumpStore st).records = st.records := by
  rw [bumpStore]; split <;> rfl

theorem bumpStore_embedCalls (st : IngestState) :
    (bumpStore st).embedCalls = st.embedCalls := by
  rw [bumpStore]; split <;> rfl

theorem bumpStore_sum (st : IngestState) :
    (bumpStore st).fromTextsCalls + (bumpStore st).addTextsCalls =
      st.fromTextsCalls + st.addTextsCalls + 1 := by
  rw [bumpStore]; split <;> simp <;> omega

/-- Effect of the loop when the external calls succeed for the first `k`
batches and fail (embedding or store write) on batch `k`: the run stops with
that batch's exception, having issued `k + 1` embedding calls and written
exactly the records of the first `k` batches. -/
theorem ingestBatches_fail (bs : List (List Doc)) :
    ∀ (outcome : Nat → BatchOutcome) (i k : Nat) (st : IngestState),
      k < bs.length → (∀ j, j < k → outcome (i + j) = BatchOutcome.ok) →
      outcome (i + k) ≠ BatchOutcome.ok →
      (ingestBatches outcome i st bs).2 = Except.error (msgOf (outcome (i + k))) ∧
      (ingestBatches outcome i st bs).1.records =
        st.records ++ (bs.take k).flatten.map toRecord ∧
      (ingestBatches outcome i st bs).1.embedCalls = st.embedCalls + k + 1 ∧
      (ingestBatches outcome i st bs).1.fromTextsCalls +
          (ingestBatches outcome i st bs).1.addTextsCalls =
        st.fromTextsCalls + st.addTextsCalls + k +
          storeAttempts (outcome (i + k)) := by
  induction bs with
  | nil => intro outcome i k st hk _ _; simp at hk
  | cons b rest ih =>
    intro outcome i k st hk hok hf
    rcases k with - | k
    · rw [ingestBatches_cons]
      rcases houtcome : outcome i with - | m | m
      · exact absurd (by simpa using houtcome) hf
      · rw [show i + 0 = i from rfl, houtcome]
        simp [msgOf, storeAttempts]
      · rw [show i + 0 = i from rfl, houtcome]
        refine ⟨rfl, ?_, ?_, ?_⟩
        · simp [bumpStore_records]
        · simp [bumpStore_embedCalls]
        · have := bumpStore_sum { st with embedCalls := st.embedCalls + 1 }
          simp at this
          simp [this, storeAttempts]
    · have houtcome0 : outcome i = BatchOutcome.ok := by
        have := hok 0 (by omega)
        simpa using this
      rw [ingestBatches_cons, houtcome0]
      have hidx : ∀ m : Nat, i + 1 + m = i + (m + 1) := by omega
      obtain ⟨h1, h2, h3, h4⟩ := ih outcome (i + 1) k
        (addRecords (bumpStore { st with embedCalls := st.embedCalls + 1 })
          (b.map toRecord))
        (by simp at hk; omega)
        (fun j hj => by rw [hidx j]; exact hok (j + 1) (by omega))
        (by rw [hidx k]; exact hf)
      rw [hidx k] at h1 h4
      refine ⟨h1, ?_, ?_, ?_⟩
      · rw [h2]
        simp [addRecords, bumpStore_records, List.append_assoc]
      · rw [h3]
        simp [addRecords, bumpStore_embedCalls]
        omega
      · rw [h4]
        have hsum := bumpStore_sum { st with embedCalls := st.embedCalls + 1 }
        simp at hsum
        simp [addRecords, hsum]
        omega

/-- Effect of an all-successful run of the whole loop starting from the
initial state. -/
theorem ingestBatches_allOk_run (pre : List Rec) (b : List Doc)
    (rest : List (List Doc)) :
    ingestBatches allOk 0 (initState pre) (b :: rest) =
      ({ records := pre ++ (b :: rest).flatten.map toRecord,
         embedCalls := (b :: rest).length,
         fromTextsCalls := 1,
         addTextsCalls := rest.length,
         storeCreated := true }, Except.ok ()) := by
  rw [ingestBatches_cons]
  show ingestBatches allOk 1
      (addRecords (bumpStore { initState pre with embedCalls := 0 + 1 })
        (b.map toRecord)) rest = _
  rw [bumpStore_fresh _ (by simp [initState]),
    ingestBatches_allOk_created rest 1 _ (by simp [addRecords, initState]),
    Prod.mk.injEq]
  simp [addRecords, initState, IngestState.mk.injEq, List.append_assoc]
  omega

/-! ## The full ingestion run (`ingest_documents`, `ingest.py` lines 109-189) -/

/-- Models `ingest_documents` (`ingest.py` lines 109-189).  In source order:
`load_environment` (raises on a missing API key), `find_pdf_files` (the
discovered PDFs and their loader results are the `inputs` argument; an empty
list returns early at lines 121-123), the `RecursiveCharacterTextSplitter`
constructor (see `mkTextSplitter`), the per-document loop (`processAll`),
the early return when no document produced chunks (lines 139-141), then the
batch loop.  Any exception is logged and re-raised by the `except` at lines
187-189, so it surfaces as `Except.error` carrying only the exception's
message; the function has no other return value. -/
def ingest_after_config (config : Config)
    (inputs : List (PdfFile × Except String (List String)))
    (pre : List Rec) (outcome : Nat → BatchOutcome) :
    IngestState × Except String Unit :=
  if inputs.isEmpty then (initState pre, Except.ok ())
  else
    match mkTextSplitter config.chunk_size config.chunk_overlap with
    | Except.error e => (initState pre, Except.error e)
    | Except.ok _ =>
        if (processAll inputs).isEmpty then (initState pre, Except.ok ())
        else
          ingestBatches outcome 0 (initState pre)
            (process_documents_in_batches (processAll inputs)
              config.batch_size)

def ingest_documents (env : Env)
    (inputs : List (PdfFile × Except String (List String)))
    (pre : List Rec) (outcome : Nat → BatchOutcome) :
    IngestState × Except String Unit :=
  match load_environment env with
  | Except.error e => (initState pre, Except.error e)
  | Except.ok config => ingest_after_config config inputs pre outcome

theorem load_environment_ok (env : Env) (key : String)
    (hkey : env.openai_api_key = some key) :
    load_environment env =
      Except.ok ⟨env.chunk_size, env.chunk_overlap, env.batch_size⟩ := by
  rw [load_environment, hkey]

theorem mkTextSplitter_ok (chunk_size chunk_overlap : Nat)
    (h : chunk_overlap ≤ chunk_size) :
    mkTextSplitter chunk_size chunk_overlap = Except.ok () := by
  rw [mkTextSplitter, if_neg (by omega)]

theorem ingest_documents_with_key (env : Env) (key : String)
    (inputs : List (PdfFile × Except String (List String)))
    (pre : List Rec) (outcome : Nat → BatchOutcome)
    (hkey : env.openai_api_key = some key) :
    ingest_documents env inputs pre outcome =
      ingest_after_config ⟨env.chunk_size, env.chunk_overlap, env.batch_size⟩
        inputs pre outcome := by
  rw [ingest_documents, load_environment_ok env key hkey]

theorem ingest_after_config_no_chunks (config : Config)
    (inputs : List (PdfFile × Except String (List String)))
    (pre : List Rec) (outcome : Nat → BatchOutcome)
    (hco : config.chunk_overlap ≤ config.chunk_size)
    (hdocs : processAll inputs = []) :
    ingest_after_config config inputs pre outcome =
      (initState pre, Except.ok ()) := by
  simp [ingest_after_config, mkTextSplitter_ok _ _ hco, hdocs]

theorem ingest_after_config_run (config : Config)
    (inputs : List (PdfFile × Except String (List String)))
    (pre : List Rec) (outcome : Nat → BatchOutcome)
    (hco : config.chunk_overlap ≤ config.chunk_size)
    (hdocs : processAll inputs ≠ []) :
    ingest_after_config config inputs pre outcome =
      ingestBatches outcome 0 (initState pre)
        (process_documents_in_batches (processAll inputs)
          config.batch_size) := by
  have hin : inputs ≠ [] := by
    intro h
    rw [h] at hdocs
    exact hdocs rfl
  simp [ingest_after_config, mkTextSplitter_ok _ _ hco, hdocs, hin]

/-- C1: with every external call succeeding, ingesting a corpus producing `M`
chunks with positive batch size `B` issues exactly `ceil(M/B)` embedding
calls and `ceil(M/B)` store-write calls — the first a `from_texts` creating
(or opening) the collection, the rest `add_texts` appends — and the
collection afterwards holds `M` records on top of its pre-existing ones. -/
theorem ingest_call_counts (env : Env) (key : String)
    (inputs : List (PdfFile × Except String (List String))) (pre : List Rec)
    (hkey : env.openai_api_key = some key)
    (hb : 0 < env.batch_size) (hco : env.chunk_overlap ≤ env.chunk_size) :
    (ingest_documents env inputs pre allOk).2 = Except.ok () ∧
    (ingest_documents env inputs pre allOk).1.embedCalls =
      ((processAll inputs).length + env.batch_size - 1) / env.batch_size ∧
    (ingest_documents env inputs pre allOk).1.fromTextsCalls +
        (ingest_documents env inputs pre allOk).1.addTextsCalls =
      ((processAll inputs).length + env.batch_size - 1) / env.batch_size ∧
    (ingest_documents env inputs pre allOk).1.fromTextsCalls =
      (if (processAll inputs).length = 0 then 0 else 1) ∧
    (ingest_documents env inputs pre allOk).1.records.length =
      pre.length + (processAll inputs).length := by
  rw [ingest_documents_with_key env key inputs pre allOk hkey]
  by_cases hdocs : processAll inputs = []
  · rw [ingest_after_config_no_chunks _ _ _ _ hco hdocs, hdocs]
    simp [initState,
      Nat.div_eq_of_lt (show env.batch_size - 1 < env.batch_size from by omega)]
  · rw [ingest_after_config_run _ _ _ _ hco hdocs]
    have hflat := batches_flatten (processAll inputs) env.batch_size hb
    have hlen := batches_length (processAll inputs) env.batch_size (by omega)
    rcases hbs : process_documents_in_batches (processAll inputs)
        env.batch_size with - | ⟨b, rest⟩
    · rw [hbs] at hflat
      simp at hflat
      exact absurd hflat hdocs
    · rw [hbs] at hflat hlen
      rw [ingestBatches_allOk_run]
      have hM : (processAll inputs).length ≠ 0 := by
        intro h0
        exact hdocs (List.eq_nil_of_length_eq_zero h0)
      refine ⟨rfl, ?_, ?_, ?_, ?_⟩
      · rw [← hlen]
      · rw [← hlen]
        show 1 + rest.length = (b :: rest).length
        rw [List.length_cons]
        omega
      · rw [if_neg hM]
      · show (pre ++ (b :: rest).flatten.map toRecord).length =
          pre.length + (processAll inputs).length
        rw [List.length_append, List.length_map, hflat]

/-- Modelled from the spec: a single unbounded embed-and-write call over the
whole chunk sequence appends every (text, metadata) record at once to the
collection's pre-existing contents. -/
def singleUnboundedCall (pre : List Rec) (docs : List Doc) : List Rec :=
  pre ++ docs.map toRecord

/-- C2: for a positive batch size, partitioning the chunk sequence into
consecutive batches and writing them in order re-concatenates to the original
sequence, and the final indexed content — even as an ordered list, hence in
particular as a multiset — equals that of the single unbounded call. -/
theorem batching_refines_single_call (docs : List Doc) (b : Nat)
    (pre : List Rec) (hb : 0 < b) :
    (process_documents_in_batches docs b).flatten = docs ∧
    (ingestBatches allOk 0 (initState pre)
        (process_documents_in_batches docs b)).1.records =
      singleUnboundedCall pre docs ∧
    ((ingestBatches allOk 0 (initState pre)
        (process_documents_in_batches docs b)).1.records : Multiset Rec) =
      (singleUnboundedCall pre docs : Multiset Rec) := by
  have hflat := batches_flatten docs b hb
  have hrec : (ingestBatches allOk 0 (initState pre)
      (process_documents_in_batches docs b)).1.records =
      singleUnboundedCall pre docs := by
    rcases hbs : process_documents_in_batches docs b with - | ⟨bt, rest⟩
    · rw [hbs] at hflat
      simp at hflat
      rw [ingestBatches_nil, singleUnboundedCall, hflat]
      simp [initState]
    · rw [hbs] at hflat
      rw [ingestBatches_allOk_run, singleUnboundedCall, ← hflat]
  exact ⟨hflat, hrec, by rw [hrec]⟩

/-- C3 (amended): when the embedding or store-write call fails on batch `k`
after `k` fully successful batches, the run aborts with that exception —
batches after `k` are never attempted (exactly `k + 1` embedding calls and
`k` successful store writes were issued) and the collection holds the
pre-existing records plus exactly the first `k` batches.  The raised error
carries only the exception message: `ingest_documents` returns no report of
`k` (see the counterexample theorem for C3). -/
theorem ingest_batch_failure_aborts (env : Env) (key : String)
    (inputs : List (PdfFile × Except String (List String))) (pre : List Rec)
    (outcome : Nat → BatchOutcome) (k : Nat)
    (hkey : env.openai_api_key = some key)
    (hco : env.chunk_overlap ≤ env.chunk_size)
    (hk : k < (process_documents_in_batches (processAll inputs)
      env.batch_size).length)
    (hok : ∀ j, j < k → outcome j = BatchOutcome.ok)
    (hf : outcome k ≠ BatchOutcome.ok) :
    (ingest_documents env inputs pre outcome).2 =
      Except.error (msgOf (outcome k)) ∧
    (ingest_documents env inputs pre outcome).1.records =
      pre ++ ((process_documents_in_batches (processAll inputs)
        env.batch_size).take k).flatten.map toRecord ∧
    (ingest_documents env inputs pre outcome).1.embedCalls = k + 1 ∧
    (ingest_documents env inputs pre outcome).1.fromTextsCalls +
        (ingest_documents env inputs pre outcome).1.addTextsCalls =
      k + storeAttempts (outcome k) := by
  have hdocs : processAll inputs ≠ [] := by
    intro h
    rw [h, batches_nil] at hk
    simp at hk
  rw [ingest_documents_with_key env key inputs pre outcome hkey,
    ingest_after_config_run _ _ _ _ hco hdocs]
  obtain ⟨h1, h2, h3, h4⟩ :=
    ingestBatches_fail _ outcome 0 k (initState pre) hk
      (fun j hj => by simpa using hok j hj) (by simpa using hf)
  simp only [Nat.zero_add] at h1 h4
  refine ⟨h1, ?_, ?_, ?_⟩
  · rw [h2]; rfl
  · rw [h3]; simp [initState]
  · rw [h4]; simp [initState]

/-- A concrete PDF used in counterexamples and witnesses. -/
def cexPdf : PdfFile := { stem := "a", name := "a.pdf", path := "docs/a.pdf" }

/-- A one-PDF corpus whose loader yields three chunk texts. -/
def cexInputs : List (PdfFile × Except String (List String)) :=
  [(cexPdf, Except.ok ["t1", "t2", "t3"])]

/-- The chunk `load_and_split_pdf` builds from `cexPdf` for text `t` at
1-based position `i`. -/
def cexChunk (t : String) (i : Nat) : Doc :=
  { page_content := t
    metadata := { source_path := "docs/a.pdf", filename := "a.pdf"
                  page_number := i, chunk_id := "a_page_" ++ toString i } }

theorem cex_processAll :
    processAll cexInputs = [cexChunk ("t1") 1, cexChunk ("t2") 2, cexChunk ("t3") 3] :=
  rfl

/-- An environment with batch size 1 (so each chunk is its own batch). -/
def cexEnv : Env :=
  { openai_api_key := some ("sk-test"), chunk_size := 1000, chunk_overlap := 200
    batch_size := 1 }

/-- External-call outcomes that fail with the same provider message on batch
`n` and succeed elsewhere. -/
def failAt (n : Nat) : Nat → BatchOutcome :=
  fun i => if i = n then BatchOutcome.embedFail ("APIError") else BatchOutcome.ok

theorem cex_batches_length :
    (process_documents_in_batches (processAll cexInputs) 1).length = 3 := by
  rw [batches_length _ _ (by omega)]
  rfl

theorem cex_batches_head :
    process_documents_in_batches (processAll cexInputs) 1 =
      (processAll cexInputs).take 1 ::
        process_documents_in_batches ((processAll cexInputs).drop 1) 1 :=
  batches_cons _ _ (by omega) (by rw [cex_processAll]; simp)

/-- C3 counterexample: two ingestion runs that fail with the same provider
message on batch 0 and on batch 1 respectively — so with 0 and 1 prior
successful batches — return the *same* value to the caller (the bare raised
exception).  The number of completed batches is therefore not reported:
`ingest_documents` produces no `IngestionReport`, and the store contents
(which do differ) are not part of the returned value. -/
theorem ingest_failure_report_counterexample :
    (ingest_documents cexEnv cexInputs [] (failAt 0)).2 =
      (ingest_documents cexEnv cexInputs [] (failAt 1)).2 ∧
    (ingest_documents cexEnv cexInputs [] (failAt 0)).1.records ≠
      (ingest_documents cexEnv cexInputs [] (failAt 1)).1.records := by
  have hbsz : cexEnv.batch_size = 1 := rfl
  obtain ⟨h1a, h2a, -, -⟩ :=
    ingest_batch_failure_aborts cexEnv ("sk-test") cexInputs [] (failAt 0) 0
      rfl (by decide)
      (by rw [hbsz, cex_batches_length]; omega)
      (fun j hj => absurd hj (by omega))
      (by rw [failAt]; simp)
  obtain ⟨h1b, h2b, -, -⟩ :=
    ingest_batch_failure_aborts cexEnv ("sk-test") cexInputs [] (failAt 1) 1
      rfl (by decide)
      (by rw [hbsz, cex_batches_length]; omega)
      (fun j hj => by
        have hj0 : j = 0 := by omega
        rw [hj0, failAt]
        simp)
      (by rw [failAt]; simp)
  constructor
  · rw [h1a, h1b]
    rfl
  · rw [h2a, h2b, hbsz, cex_batches_head]
    rw [cex_processAll]
    simp

/-- C5 (amended): with `chunkOverlap` strictly greater than `chunkSize` and a
non-empty PDF list, the run fails fast: the `ValueError` raised by the
splitter constructor propagates before any document is loaded, chunked,
embedded or written — no embedding or store call is issued and the collection
keeps exactly its pre-existing records.  (The check lives in the langchain
constructor, not in the repository's own code, and — see the counterexample —
it does not fire when `chunkOverlap = chunkSize`.) -/
theorem overlap_gt_size_fails_fast (env : Env) (key : String)
    (inputs : List (PdfFile × Except String (List String))) (pre : List Rec)
    (outcome : Nat → BatchOutcome)
    (hkey : env.openai_api_key = some key)
    (hco : env.chunk_size < env.chunk_overlap)
    (hin : inputs ≠ []) :
    ingest_documents env inputs pre outcome =
      (initState pre, Except.error ("Got a larger chunk overlap (" ++
        toString env.chunk_overlap ++ ") than chunk size (" ++
        toString env.chunk_size ++ "), should be smaller.")) := by
  rw [ingest_documents_with_key env key inputs pre outcome hkey]
  simp [ingest_after_config, mkTextSplitter, hin, hco]

/-- C5 counterexample: a configuration with `chunkOverlap == chunkSize`
(`200 = 200`) is *not* rejected — ingestion runs to completion, issues an
embedding call and writes the corpus, contradicting the claim that every
configuration with `chunkOverlap ≥ chunkSize` raises a `ConfigurationError`
before any text is processed. -/
theorem overlap_eq_size_not_rejected_counterexample :
    (ingest_documents
        { openai_api_key := some ("sk-test"), chunk_size := 200
          chunk_overlap := 200, batch_size := 100 }
        cexInputs [] allOk).2 = Except.ok () ∧
    (ingest_documents
        { openai_api_key := some ("sk-test"), chunk_size := 200
          chunk_overlap := 200, batch_size := 100 }
        cexInputs [] allOk).1.embedCalls = 1 ∧
    (ingest_documents
        { openai_api_key := some ("sk-test"), chunk_size := 200
          chunk_overlap := 200, batch_size := 100 }
        cexInputs [] allOk).1.records.length = 3 := by
  obtain ⟨h1, h2, -, -, h5⟩ :=
    ingest_call_counts
      { openai_api_key := some ("sk-test"), chunk_size := 200
        chunk_overlap := 200, batch_size := 100 }
      ("sk-test") cexInputs [] rfl (by decide) (by decide)
  refine ⟨h1, ?_, ?_⟩
  · rw [h2, cex_processAll]
    rfl
  · rw [h5, cex_processAll]
    rfl

/-- C6 counterexample: the chunk produced from a PDF with stem `report` at
ordinal 1 carries identifier `"report_page_1"`, not the claimed
`<stem>_<ordinal>` form `"report_1"`. -/
theorem chunk_id_format_counterexample :
    (load_and_split_pdf ⟨"report", "report.pdf", "docs/report.pdf"⟩
        (Except.ok ["hello"])).map
      (fun d => d.metadata.chunk_id) = ["report_page_1"] ∧
    ("report_page_1" : String) ≠ "report" ++ "_" ++ toString 1 := by
  exact ⟨rfl, by decide⟩

/-! ## The chat engine (`chat.py`) -/

/-- Metadata of a retrieved source document as read by `format_sources`
(`chat.py` line 130): `metadata.get("filename", "Unknown")` and
`metadata.get("page_number", "?")` — either field may be absent. -/
structure RMeta where
  filename : Option String
  page_number : Option Nat
deriving DecidableEq, Repr

/-- The `source_info` string built at `chat.py` line 130. -/
def source_info (m : RMeta) : String :=
  m.filename.getD ("Unknown") ++ " (page " ++
    (match m.page_number with
     | some n => toString n
     | none => "?") ++ ")"

/-- The dedup loop of `format_sources` (`chat.py` lines 125-134): walk the
citation strings in order, keeping each string the first time it is met
(`seen_sources` is the membership set, here a list). -/
def dedupSeen (seen : List String) : List String → List String
  | [] => []
  | c :: cs =>
      if c ∈ seen then dedupSeen seen cs
      else c :: dedupSeen (c :: seen) cs

/-- Models `format_sources` (`chat.py` lines 120-136). -/
def format_sources (docs : List RMeta) : String :=
  if docs.isEmpty then "No sources found."
  else "Sources: " ++ String.intercalate (", ") (dedupSeen [] (docs.map source_info))

theorem dedupSeen_sublist (l : List String) :
    ∀ seen, (dedupSeen seen l).Sublist l := by
  induction l with
  | nil => intro seen; simp [dedupSeen]
  | cons c cs ih =>
    intro seen
    rw [dedupSeen]
    split
    · exact ((ih seen).trans (List.Sublist.refl cs)).cons c
    · exact (ih (c :: seen)).cons₂ c

theorem dedupSeen_mem (l : List String) :
    ∀ seen x, x ∈ dedupSeen seen l ↔ x ∈ l ∧ x ∉ seen := by
  induction l with
  | nil => intro seen x; simp [dedupSeen]
  | cons c cs ih =>
    intro seen x
    rw [dedupSeen]
    split
    · rw [ih]
      constructor
      · rintro ⟨hx, hs⟩
        exact ⟨List.mem_cons_of_mem _ hx, hs⟩
      · rintro ⟨hx, hs⟩
        rcases List.mem_cons.mp hx with h | h
        · subst h; exact absurd (by assumption) hs
        · exact ⟨h, hs⟩
    · rw [List.mem_cons, ih]
      constructor
      · rintro (h | ⟨hx, hs⟩)
        · subst h; exact ⟨List.mem_cons_self _ _, by assumption⟩
        · refine ⟨List.mem_cons_of_mem _ hx, fun hmem => hs ?_⟩
          exact List.mem_cons_of_mem _ hmem
      · rintro ⟨hx, hs⟩
        by_cases hxc : x = c
        · exact Or.inl hxc
        · rcases List.mem_cons.mp hx with h | h
          · exact absurd h hxc
          · exact Or.inr ⟨h, by simp [hxc, hs]⟩

theorem dedupSeen_nodup (l : List String) :
    ∀ seen, (dedupSeen seen l).Nodup := by
  induction l with
  | nil => intro seen; simp [dedupSeen]
  | cons c cs ih =>
    intro seen
    rw [dedupSeen]
    split
    · exact ih seen
    · refine List.Nodup.cons ?_ (ih (c :: seen))
      intro hmem
      exact ((dedupSeen_mem cs (c :: seen) c).mp hmem).2 (List.mem_cons_self _ _)

theorem dedupSeen_of_nodup (l : List String) :
    ∀ seen, l.Nodup → (∀ x ∈ l, x ∉ seen) → dedupSeen seen l = l := by
  induction l with
  | nil => intro seen _ _; rfl
  | cons c cs ih =>
    intro seen hnd hdis
    rw [dedupSeen, if_neg (hdis c (List.mem_cons_self _ _))]
    congr 1
    refine ih (c :: seen) (List.Nodup.of_cons hnd) ?_
    intro x hx
    rw [List.mem_cons]
    rintro (h | h)
    · subst h
      exact (List.nodup_cons.mp hnd).1 hx
    · exact hdis x (List.mem_cons_of_mem _ hx) h

theorem dedupSeen_idempotent (l : List String) :
    dedupSeen [] (dedupSeen [] l) = dedupSeen [] l :=
  dedupSeen_of_nodup _ [] (dedupSeen_nodup l []) (by simp)

/-- C8: citation formatting deduplicates the retrieved (filename, page) pairs
by their citation string, keeping first occurrences in their original order —
the result is a duplicate-free subsequence of the per-document citations in
which every retrieved citation still occurs — it is idempotent
(re-deduplicating an already deduplicated list changes nothing), and on the
spec's example it yields `"Sources: a.txt (page 1), b.txt (page 2)"`. -/
theorem format_sources_dedup_first_seen :
    format_sources [⟨some ("a.txt"), some 1⟩, ⟨some ("b.txt"), some 2⟩,
        ⟨some ("a.txt"), some 1⟩] =
      "Sources: a.txt (page 1), b.txt (page 2)" ∧
    (∀ docs : List RMeta,
      (dedupSeen [] (docs.map source_info)).Sublist (docs.map source_info) ∧
      (dedupSeen [] (docs.map source_info)).Nodup ∧
      (∀ c, c ∈ dedupSeen [] (docs.map source_info) ↔ c ∈ docs.map source_info)) ∧
    (∀ l : List String, dedupSeen [] (dedupSeen [] l) = dedupSeen [] l) := by
  refine ⟨by decide, ?_, dedupSeen_idempotent⟩
  intro docs
  exact ⟨dedupSeen_sublist _ [], dedupSeen_nodup _ [],
    fun c => by rw [dedupSeen_mem]; simp⟩

/-- C10: formatting an empty retrieved-document sequence returns the fixed
string `"No sources found."`, and the result for any non-empty sequence is
`"Sources: "` followed by the comma-joined citation list. -/
theorem format_sources_empty_and_nonempty :
    format_sources [] = "No sources found." ∧
    ∀ docs : List RMeta, docs ≠ [] →
      ∃ rest, format_sources docs = "Sources: " ++ rest := by
  refine ⟨rfl, ?_⟩
  intro docs h
  refine ⟨String.intercalate (", ") (dedupSeen [] (docs.map source_info)), ?_⟩
  rw [format_sources, if_neg (by simp [h])]

theorem format_sources_empty_and_nonempty_witness :
    ([⟨some ("a.txt"), some 1⟩] : List RMeta) ≠ [] ∧
    ∃ rest, format_sources [⟨some ("a.txt"), some 1⟩] = "Sources: " ++ rest :=
  ⟨by decide,
    format_sources_empty_and_nonempty.2 [⟨some ("a.txt"), some 1⟩] (by decide)⟩

/-- Models `initialize_vectorstore` (`chat.py` lines 51-82): whether the
persist directory exists and the collection's `count()` are the observable
inputs.  A missing directory or an empty collection raises a `ValueError`
whose message tells the user to run `ingest.py` first.  (The Python messages
wrap the directory name in single quotes; the quote characters are omitted
here.) -/
def initialize_vectorstore (persist_dir : String) (dirExists : Bool)
    (count : Nat) : Except String Nat :=
  if !dirExists then
    Except.error ("Database directory " ++ persist_dir ++ " not found. " ++
      "Please run ingest.py first to create the knowledge base.")
  else if count = 0 then
    Except.error ("No documents found in the knowledge base. " ++
      "Please run ingest.py first to populate the database.")
  else Except.ok count

/-- One call of the conversational retrieval chain (`chat.py` line 202) with
its internal `ConversationBufferMemory` (`chat.py` lines 104-106): the
retrieval + LLM outcome for a question is an oracle; langchain's
`Chain.__call__` saves the (question, answer) turn to the memory only after
the chain body succeeds, so a raised exception leaves the memory unchanged. -/
def qaStep (oracle : String → Except String String)
    (memory : List (String × String)) (q : String) :
    List (String × String) × Except String String :=
  match oracle q with
  | Except.ok a => (memory ++ [(q, a)], Except.ok a)
  | Except.error e => (memory, Except.error e)

/-- Python's `str.lower()`: character-wise lowercasing (the same function as
`String.toLower`, written over the character list so that it evaluates). -/
def pyLower (s : String) : String := String.mk (s.data.map Char.toLower)

/-- The exit test of the loop (`chat.py` line 193):
`user_input.lower() in ["exit", "quit", "q", ""]`. -/
def isExitCommand (s : String) : Bool :=
  pyLower s == "exit" || pyLower s == "quit" || pyLower s == "q" || pyLower s == ""

/-- The conversation loop (`chat.py` lines 189-227): consume the user's
inputs in order until an exit command (end of input maps to `"exit"`,
`chat.py` line 157); a per-query exception is caught at lines 223-227,
reported, and the loop continues with the next question.  Returns the final
conversation memory. -/
def chatLoop (oracle : String → Except String String) :
    List String → List (String × String) → List (String × String)
  | [], memory => memory
  | q :: qs, memory =>
      if isExitCommand q then memory
      else chatLoop oracle qs (qaStep oracle memory q).1

/-- Models `chat_loop` startup (`chat.py` lines 168-236): configuration,
`initialize_vectorstore`, chain construction with a fresh empty memory, then
the conversation loop.  An initialization failure prints remediation and
exits before any query is processed and before any memory exists. -/
def chat_session (persist_dir : String) (dirExists : Bool) (count : Nat)
    (oracle : String → Except String String) (inputs : List String) :
    List (String × String) × Except String Unit :=
  match initialize_vectorstore persist_dir dirExists count with
  | Except.error e => ([], Except.error e)
  | Except.ok _ => (chatLoop oracle inputs [], Except.ok ())

/-- C7: when the vector store reports `count() == 0`, the whole session is
rejected at initialization regardless of the questions asked: every query
fails (none is ever answered), the conversation memory stays empty, and the
raised message contains the remediation `"run ingest.py first"`. -/
theorem empty_index_rejects_queries (persist_dir : String)
    (oracle : String → Except String String) (inputs : List String) :
    (chat_session persist_dir true 0 oracle inputs).1 = [] ∧
    (chat_session persist_dir true 0 oracle inputs).2 =
      Except.error ("No documents found in the knowledge base. " ++
        "Please run ingest.py first to populate the database.") ∧
    ∃ before after,
      (chat_session persist_dir true 0 oracle inputs).2 =
        Except.error (before ++ "run ingest.py first" ++ after) := by
  refine ⟨rfl, rfl, "No documents found in the knowledge base. Please ",
    " to populate the database.", ?_⟩
  rfl

/-- C9: for any inputs that are not exit commands, the conversation loop
appends exactly one (question, answer) turn per successful query, in
submission order, and appends nothing for a failing query while continuing
with the remaining questions. -/
theorem memory_one_turn_per_success (oracle : String → Except String String)
    (inputs : List String) (memory : List (String × String))
    (h : ∀ q ∈ inputs, isExitCommand q = false) :
    chatLoop oracle inputs memory =
      memory ++ inputs.filterMap (fun q =>
        match oracle q with
        | Except.ok a => some (q, a)
        | Except.error _ => none) := by
  induction inputs generalizing memory with
  | nil => simp [chatLoop]
  | cons q qs ih =>
    have hq : isExitCommand q = false := h q (List.mem_cons_self _ _)
    rw [chatLoop, if_neg (by simp [hq])]
    have hqs : ∀ x ∈ qs, isExitCommand x = false :=
      fun x hx => h x (List.mem_cons_of_mem _ hx)
    cases ho : oracle q with
    | ok a =>
      rw [show (qaStep oracle memory q).1 = memory ++ [(q, a)] from by
          rw [qaStep, ho]]
      rw [ih _ hqs, List.filterMap_cons]
      simp [ho]
    | error e =>
      rw [show (qaStep oracle memory q).1 = memory from by rw [qaStep, ho]]
      rw [ih _ hqs, List.filterMap_cons]
      simp [ho]

/-- Chain outcomes for the C9 witness: two successes, then a failure, then a
success. -/
def c9Oracle : String → Except String String :=
  fun q =>
    if q = "q1" then Except.ok ("a1")
    else if q = "q2" then Except.ok ("a2")
    else if q = "q3" then Except.error ("boom")
    else Except.ok ("a4")

theorem memory_one_turn_per_success_witness :
    (∀ q ∈ (["q1", "q2", "q3", "q4"] : List String), isExitCommand q = false) ∧
    chatLoop c9Oracle ["q1", "q2", "q3", "q4"] [] =
      [("q1", "a1"), ("q2", "a2"), ("q4", "a4")] := by
  refine ⟨by decide, ?_⟩
  rw [memory_one_turn_per_success c9Oracle _ [] (by decide)]
  rfl

/-! ## Witnesses instantiating the hypothesis-bearing claim theorems -/

theorem ingest_call_counts_witness :
    cexEnv.openai_api_key = some ("sk-test") ∧
    0 < cexEnv.batch_size ∧
    cexEnv.chunk_overlap ≤ cexEnv.chunk_size ∧
    ((ingest_documents cexEnv cexInputs [] allOk).2 = Except.ok () ∧
     (ingest_documents cexEnv cexInputs [] allOk).1.embedCalls =
       ((processAll cexInputs).length + cexEnv.batch_size - 1) /
         cexEnv.batch_size ∧
     (ingest_documents cexEnv cexInputs [] allOk).1.fromTextsCalls +
         (ingest_documents cexEnv cexInputs [] allOk).1.addTextsCalls =
       ((processAll cexInputs).length + cexEnv.batch_size - 1) /
         cexEnv.batch_size ∧
     (ingest_documents cexEnv cexInputs [] allOk).1.fromTextsCalls =
       (if (processAll cexInputs).length = 0 then 0 else 1) ∧
     (ingest_documents cexEnv cexInputs [] allOk).1.records.length =
       ([] : List Rec).length + (processAll cexInputs).length) :=
  ⟨rfl, by decide, by decide,
    ingest_call_counts cexEnv ("sk-test") cexInputs [] rfl (by decide) (by decide)⟩

theorem batching_refines_single_call_witness :
    (0 : Nat) < 2 ∧
    ((process_documents_in_batches [cexChunk ("t1") 1] 2).flatten =
       [cexChunk ("t1") 1] ∧
     (ingestBatches allOk 0 (initState [])
         (process_documents_in_batches [cexChunk ("t1") 1] 2)).1.records =
       singleUnboundedCall [] [cexChunk ("t1") 1] ∧
     ((ingestBatches allOk 0 (initState [])
         (process_documents_in_batches [cexChunk ("t1") 1] 2)).1.records :
           Multiset Rec) =
       (singleUnboundedCall [] [cexChunk ("t1") 1] : Multiset Rec)) :=
  ⟨by decide, batching_refines_single_call [cexChunk ("t1") 1] 2 [] (by decide)⟩

theorem cex_batches_length_env :
    (process_documents_in_batches (processAll cexInputs)
      cexEnv.batch_size).length = 3 :=
  cex_batches_length

theorem ingest_batch_failure_aborts_witness :
    cexEnv.openai_api_key = some ("sk-test") ∧
    cexEnv.chunk_overlap ≤ cexEnv.chunk_size ∧
    0 < (process_documents_in_batches (processAll cexInputs)
      cexEnv.batch_size).length ∧
    (∀ j, j < 0 → failAt 0 j = BatchOutcome.ok) ∧
    failAt 0 0 ≠ BatchOutcome.ok ∧
    ((ingest_documents cexEnv cexInputs [] (failAt 0)).2 =
       Except.error (msgOf (failAt 0 0)) ∧
     (ingest_documents cexEnv cexInputs [] (failAt 0)).1.records =
       [] ++ ((process_documents_in_batches (processAll cexInputs)
         cexEnv.batch_size).take 0).flatten.map toRecord ∧
     (ingest_documents cexEnv cexInputs [] (failAt 0)).1.embedCalls = 0 + 1 ∧
     (ingest_documents cexEnv cexInputs [] (failAt 0)).1.fromTextsCalls +
         (ingest_documents cexEnv cexInputs [] (failAt 0)).1.addTextsCalls =
       0 + storeAttempts (failAt 0 0)) :=
  ⟨rfl, by decide, by rw [cex_batches_length_env]; decide,
    fun j hj => absurd hj (Nat.not_lt_zero j), by decide,
    ingest_batch_failure_aborts cexEnv ("sk-test") cexInputs [] (failAt 0) 0 rfl
      (by decide) (by rw [cex_batches_length_env]; decide)
      (fun j hj => absurd hj (Nat.not_lt_zero j)) (by decide)⟩

/-- A configuration whose chunk overlap strictly exceeds its chunk size. -/
def c5Env : Env :=
  { openai_api_key := some ("sk-test"), chunk_size := 100, chunk_overlap := 200
    batch_size := 10 }

theorem overlap_gt_size_fails_fast_witness :
    c5Env.openai_api_key = some ("sk-test") ∧
    c5Env.chunk_size < c5Env.chunk_overlap ∧
    cexInputs ≠ [] ∧
    ingest_documents c5Env cexInputs [] allOk =
      (initState [], Except.error ("Got a larger chunk overlap (" ++
        toString c5Env.chunk_overlap ++ ") than chunk size (" ++
        toString c5Env.chunk_size ++ "), should be smaller.")) :=
  ⟨rfl, by decide, by simp [cexInputs],
    overlap_gt_size_fails_fast c5Env ("sk-test") cexInputs [] allOk rfl
      (by decide) (by simp [cexInputs])⟩

end RagBot
